import Mathlib

/-!
Shallow embedding of `src/pki_playground.py` (pki-playground).

The program manipulates a filesystem (PKI directories, certificate files,
deployment directories) and the global name-resolution file `/etc/hosts`,
and invokes external tools (`openssl`, `keytool`, `docker-compose`) whose
argument vectors are built in the source.

Modelling conventions:
* The filesystem is a pair of a directory list and a (path, content)
  association list; `os.path.exists` / `os.path.isfile` / `os.mkdir` /
  `open(..., "w")` / `rm` are modelled on it.  Paths are the strings built
  in the source with the redundant `./` prefix normalised away (`./p` and
  `p` denote the same path for the OS).
* External tool invocations are recorded as the exact argument vectors the
  source builds; their side effects are the files named by their `-out` /
  `-destkeystore` options, and they are modelled as succeeding (no claim
  under scrutiny concerns a nonzero exit of an external tool inside a
  successful precondition region).
* `sys.exit(1)` paths are modelled as an error result returned before any
  further state change, mirroring the textual order of the source.
* The content of `/etc/hosts` is modelled as a `List Char`, because the
  deregistration logic of `_start_deployment` iterates over the file's
  physical lines (Python keeps the trailing newline on each line) and
  tests Python substring containment (`in`); both are defined here
  character-exactly.
-/

set_option autoImplicit false

namespace PkiPlayground

/-! ### Filesystem model -/

/-- A filesystem: existing directories and files with their contents.
Writing a file prepends a `(path, content)` pair (later writes shadow
earlier ones); removing a file drops every pair at that path. -/
structure FS where
  dirs : List String
  files : List (String × String)
deriving Repr, DecidableEq

/-- Directory existence, as probed by `os.path.exists` on a directory. -/
def hasDir (fs : FS) (p : String) : Bool :=
  fs.dirs.contains p

/-- File existence, as probed by `os.path.isfile`. -/
def hasFile (fs : FS) (p : String) : Bool :=
  fs.files.any (fun f => f.fst == p)

/-- `os.path.exists`: true for a directory or a file at the path. -/
def pathExists (fs : FS) (p : String) : Bool :=
  hasDir fs p || hasFile fs p

/-- `os.mkdir`. -/
def mkdir (fs : FS) (p : String) : FS :=
  { fs with dirs := p :: fs.dirs }

/-- `open(p, "w").write(c)`: create or overwrite the file at `p`. -/
def writeFile (fs : FS) (p c : String) : FS :=
  { fs with files := (p, c) :: fs.files }

/-- `rm p`: remove the file at `p`. -/
def removeFile (fs : FS) (p : String) : FS :=
  { fs with files := fs.files.filter (fun f => !(f.fst == p)) }

/-- Content of the file at `p`, if present (most recent write wins). -/
def readFile (fs : FS) (p : String) : Option String :=
  (fs.files.find? (fun f => f.fst == p)).map Prod.snd

/-! ### Constants of the source (`PKI_DIR`, `DEP_DIR`) -/

/-- `PKI_DIR = "pkis"`. -/
def PKI_DIR : String := "pkis"

/-- `DEP_DIR = "deployments"`. -/
def DEP_DIR : String := "deployments"

/-! ### Error model

The source reports every precondition failure by printing a message and
calling `sys.exit(1)`.  The spec names these conditions; the embedding
tags each distinct `print`+`exit(1)` site of the source with a
constructor. -/

inductive PkiError where
  /-- `_generate_root_certs`: "PKI with the name ... already exists". -/
  | alreadyExists : PkiError
  /-- `_generate_server_certs`: "PKI directory with the name of ... does not exist". -/
  | pkiDirMissing : PkiError
  /-- `_check_files`: "Error: missing file {f}!" followed by `sys.exit(1)`;
  carries the single file name the source prints before exiting. -/
  | missingFile : String → PkiError
deriving Repr, DecidableEq

/-! ### `_check_files` -/

/-- `_check_files(files)`: walk the list in order; at the first path that
is not a file, print it and exit.  Returns the first missing path, or
`none` when all exist. -/
def check_files (fs : FS) : List String → Option String
  | [] => none
  | f :: rest => if hasFile fs f then check_files fs rest else some f

/-! ### `_generate_root_certs` (PKI bootstrap) -/

/-- The `openssl req -x509 ...` argument vector of `_generate_root_certs`
(root key + self-signed root certificate, `-days 356`). -/
def openssl_root_command (pki_name : String) : List String :=
  ["openssl", "req", "-x509", "-sha256", "-days", "356", "-nodes",
   "-newkey", "rsa:2048",
   "-subj", "/CN=" ++ pki_name ++ ".com/C=UA/L=Kiev",
   "-keyout", pki_name ++ ".key",
   "-out", pki_name ++ ".crt"]

/-- The `openssl genrsa` argument vector (service private key). -/
def openssl_genrsa_command (pki_name : String) : List String :=
  ["openssl", "genrsa", "-out", "private." ++ pki_name ++ ".key", "2048"]

/-- The `openssl req -new` argument vector (CSR from the service key). -/
def openssl_gencsr_command (pki_name : String) : List String :=
  ["openssl", "req", "-new",
   "-key", "private." ++ pki_name ++ ".key",
   "-out", pki_name ++ ".csr",
   "-config", "csr.conf"]

/-- Rendering of `pkis/csr_template.j2` with `PKI_NAME` substituted.  The
template file is data, not code of the repository; its rendering is
modelled as a tagged substitution of the one variable it consumes. -/
def csrTemplateRender (pki_name : String) : String :=
  "csr_template[PKI_NAME=" ++ pki_name ++ "]"

/-- Result of a PKI-store operation: final filesystem, messages printed,
external commands invoked (in order), and the error it exited with, if
any. -/
structure OpResult where
  fs : FS
  msgs : List String
  cmds : List (List String)
  err : Option PkiError
deriving Repr, DecidableEq

/-- `_generate_root_certs(pki_name)`.  Mirrors the textual order of the
source: existence guard on the PKI directory first (exit on clash), then
root key/cert generation, service key generation, CSR config rendering,
CSR generation. -/
def generate_root_certs (fs : FS) (pki_name : String) : OpResult :=
  let working_directory := PKI_DIR ++ "/" ++ pki_name
  if pathExists fs working_directory then
    { fs := fs,
      msgs := ["Error: PKI with the name " ++ pki_name ++ " already exists"],
      cmds := [], err := some .alreadyExists }
  else
    let fs1 := mkdir fs working_directory
    -- openssl req -x509: writes <pki>.key and <pki>.crt in the working dir
    let fs2 := writeFile (writeFile fs1 (working_directory ++ "/" ++ pki_name ++ ".key") "rootkey")
                 (working_directory ++ "/" ++ pki_name ++ ".crt") "rootcert"
    -- openssl genrsa: writes private.<pki>.key
    let fs3 := writeFile fs2 (working_directory ++ "/private." ++ pki_name ++ ".key") "servicekey"
    -- render csr.conf from the template
    let fs4 := writeFile fs3 (working_directory ++ "/csr.conf") (csrTemplateRender pki_name)
    -- openssl req -new: writes <pki>.csr
    let fs5 := writeFile fs4 (working_directory ++ "/" ++ pki_name ++ ".csr") "csr"
    { fs := fs5,
      msgs := [],
      cmds := [openssl_root_command pki_name, openssl_genrsa_command pki_name,
               openssl_gencsr_command pki_name],
      err := none }

/-! ### `_generate_server_certs` (leaf issuance) -/

/-- The four root artifacts `_generate_server_certs` requires, in the
order the source lists them (service key, root cert, CSR, root key). -/
def required_filenames (pki_name : String) : List String :=
  [PKI_DIR ++ "/" ++ pki_name ++ "/private." ++ pki_name ++ ".key",
   PKI_DIR ++ "/" ++ pki_name ++ "/" ++ pki_name ++ ".crt",
   PKI_DIR ++ "/" ++ pki_name ++ "/" ++ pki_name ++ ".csr",
   PKI_DIR ++ "/" ++ pki_name ++ "/" ++ pki_name ++ ".key"]

/-- The `openssl x509 -req ...` argument vector that signs the pending CSR
under the root (`-days 365`). -/
def openssl_create_ssl (pki_name server_domain : String) : List String :=
  ["openssl", "x509", "-req",
   "-in", "../../" ++ pki_name ++ ".csr",
   "-CA", "../../" ++ pki_name ++ ".crt",
   "-CAkey", "../../" ++ pki_name ++ ".key",
   "-subj",
   "/C=UA/ST=Kiev Oblast/L=Something/O=Something Corp/OU=IT Dept/CN=" ++ server_domain,
   "-CAcreateserial",
   "-out", server_domain ++ ".crt",
   "-days", "365", "-sha256",
   "-extfile", "cert.conf"]

/-- The `openssl pkcs12 -export ...` argument vector; the operator's
passphrase is embedded as `pass:<passphrase>` exactly as in the source. -/
def openssl_create_pkcs12_keystore
    (pki_name server_domain keystore_password : String) : List String :=
  ["openssl", "pkcs12", "-export",
   "-out", "keystore.pkcs12",
   "-passout", "pass:" ++ keystore_password,
   "-inkey", "../../private." ++ pki_name ++ ".key",
   "-in", "../../servers/" ++ server_domain ++ "/" ++ server_domain ++ ".crt",
   "-certfile", "../../" ++ pki_name ++ ".crt",
   "-name", server_domain]

/-- The `keytool -importkeystore ...` argument vector converting the
PKCS#12 bundle to a JKS keystore. -/
def openssl_convert_to_jks (server_domain keystore_password : String) : List String :=
  ["keytool", "-importkeystore",
   "-srckeystore", "keystore.pkcs12",
   "-srcstorepass", keystore_password,
   "-srcstoretype", "pkcs12",
   "-srcalias", server_domain,
   "-deststoretype", "jks",
   "-destkeystore", "keystore.jks",
   "-deststorepass", keystore_password,
   "-destalias", server_domain]

/-- The interactive prompt of `_generate_server_certs`; the source states
the 6-character minimum only in this string and never checks it. -/
def keystore_password_prompt : String :=
  "Enter the keystore password(at least 6 characters): "

/-- Rendering of `pkis/cert_template.j2` with `SERVER_DOMAIN`
substituted (template file is data; modelled as tagged substitution). -/
def certTemplateRender (server_domain : String) : String :=
  "cert_template[SERVER_DOMAIN=" ++ server_domain ++ "]"

/-- `_generate_server_certs(pki_name, server_domain)` with the
interactively solicited keystore passphrase as a parameter.  Mirrors the
source order: PKI-directory guard, four-artifact check (exit at the first
missing file), `servers/` and domain directory creation — the source
prints the "already in use" warning inside the not-exists branch, right
after `os.mkdir` — then cert.conf rendering, CSR signing, PKCS#12 export
(passphrase embedded, no length check), JKS conversion, and removal of
the intermediate `keystore.pkcs12`. -/
def generate_server_certs
    (fs : FS) (pki_name server_domain keystore_password : String) : OpResult :=
  let pki_directory := PKI_DIR ++ "/" ++ pki_name
  if !(pathExists fs pki_directory) then
    { fs := fs,
      msgs := ["Error: PKI directory with the name of " ++ pki_name ++ " does not exist"],
      cmds := [], err := some .pkiDirMissing }
  else
    match check_files fs (required_filenames pki_name) with
    | some f =>
      { fs := fs, msgs := ["Error: missing file " ++ f ++ "!"],
        cmds := [], err := some (.missingFile f) }
    | none =>
      let server_directory := pki_directory ++ "/servers"
      let fs1 := if !(pathExists fs server_directory) then mkdir fs server_directory else fs
      let domain_directory := server_directory ++ "/" ++ server_domain
      -- the source prints the reuse warning INSIDE the not-exists branch,
      -- directly after `os.mkdir(domain_directory)`
      let fs2 := if !(pathExists fs1 domain_directory) then mkdir fs1 domain_directory else fs1
      let msgs2 : List String :=
        if !(pathExists fs1 domain_directory) then
          ["Error: " ++ domain_directory ++ " is already in use"]
        else []
      -- cert.conf from the template
      let fs3 := writeFile fs2 (domain_directory ++ "/cert.conf")
                   (certTemplateRender server_domain)
      -- openssl x509 -req: writes <domain>.crt in the domain directory
      let fs4 := writeFile fs3 (domain_directory ++ "/" ++ server_domain ++ ".crt") "leafcert"
      -- openssl pkcs12 -export: writes keystore.pkcs12
      let fs5 := writeFile fs4 (domain_directory ++ "/keystore.pkcs12") "pkcs12"
      -- keytool: writes keystore.jks
      let fs6 := writeFile fs5 (domain_directory ++ "/keystore.jks") "jks"
      -- rm keystore.pkcs12
      let fs7 := removeFile fs6 (domain_directory ++ "/keystore.pkcs12")
      { fs := fs7,
        msgs := msgs2,
        cmds := [openssl_create_ssl pki_name server_domain,
                 openssl_create_pkcs12_keystore pki_name server_domain keystore_password,
                 openssl_convert_to_jks server_domain keystore_password,
                 ["rm", "keystore.pkcs12"]],
        err := none }

/-! ### `_generate_deployment` (provisioning) -/

/-- Rendering of `deployments/docker-compose-template.j2` with the four
variables the template consumes (template file is data; modelled as
tagged substitution, which in particular records that the passphrase is
embedded verbatim in the rendered compose definition). -/
def composeTemplateRender
    (https_port keystore_password pki_name domain_name : String) : String :=
  "compose_template[HTTPS_PORT_BIND=" ++ https_port ++
    ",KEYSTORE_PASSWORD=" ++ keystore_password ++
    ",PKI_NAME=" ++ pki_name ++
    ",DOMAIN_NAME=" ++ domain_name ++ "]"

/-- The host-registration record `_generate_deployment` writes:
`127.0.0.1` then four spaces then the domain, with no trailing newline. -/
def host_additions_content (domain_name : String) : String :=
  "127.0.0.1    " ++ domain_name

/-- `_generate_deployment(deployment_name, https_port, pki_name,
domain_name)` with the interactively solicited keystore passphrase as a
parameter.  Directory creation is idempotent (no exit on an existing
directory); the passphrase is used with no length check. -/
def generate_deployment
    (fs : FS) (deployment_name https_port pki_name domain_name keystore_password : String) :
    FS :=
  let deployment_path := DEP_DIR ++ "/" ++ deployment_name
  let fs1 := if !(pathExists fs deployment_path) then mkdir fs deployment_path else fs
  let fs2 := writeFile fs1 (deployment_path ++ "/docker-compose.yaml")
               (composeTemplateRender https_port keystore_password pki_name domain_name)
  writeFile fs2 (deployment_path ++ "/host_additions") (host_additions_content domain_name)

/-! ### `_start_deployment` (activation) — `/etc/hosts` mutation

`_start_deployment` appends `"\n" + hosts_entry` to `/etc/hosts`, runs
`docker-compose up` with `check=True`, and only in the
`except KeyboardInterrupt` handler rewrites `/etc/hosts` keeping every
physical line in which `hosts_entry` does not occur as a substring
(Python's `hosts_entry not in line`, over lines that keep their trailing
newline).  The content of `/etc/hosts` is modelled as a `List Char`. -/

/-- Python string prefix test: `prefixOf n h` is true when `n` is a
prefix of `h`. -/
def prefixOf : List Char → List Char → Bool
  | [], _ => true
  | _ :: _, [] => false
  | a :: as, b :: bs => a == b && prefixOf as bs

/-- Python substring test `n in h` (contiguous occurrence). -/
def isSubstring (n : List Char) : List Char → Bool
  | [] => n.isEmpty
  | c :: rest => prefixOf n (c :: rest) || isSubstring n rest

/-- The newline character, named once. -/
def newline : Char := Char.ofNat 10

/-- Split a character stream into Python's physical lines: each line
keeps its terminating newline; a final unterminated segment is its own
line; the empty stream has no lines. -/
def splitLinesKeep : List Char → List (List Char)
  | [] => []
  | c :: rest =>
    if c == newline then [c] :: splitLinesKeep rest
    else
      match splitLinesKeep rest with
      | [] => [[c]]
      | l :: ls => (c :: l) :: ls

/-- The registration step of `_start_deployment`:
`hosts.write("\n" + hosts_entry)` in append mode. -/
def registerEntry (hosts entry : List Char) : List Char :=
  hosts ++ newline :: entry

/-- The deregistration step of `_start_deployment` (the body of the
`KeyboardInterrupt` handler): keep every physical line in which `entry`
does not occur as a substring, and concatenate them back (the `mv` of the
temp file over `/etc/hosts`). -/
def removeEntry (entry hosts : List Char) : List Char :=
  ((splitLinesKeep hosts).filter (fun l => !(isSubstring entry l))).flatten

/-- How the `docker-compose up` child ends: exit status 0, a nonzero
exit status (`subprocess.CalledProcessError` under `check=True`), or a
`KeyboardInterrupt` delivered while the activator blocks on it. -/
inductive ChildOutcome where
  | exitZero : ChildOutcome
  | exitNonzero : ChildOutcome
  | interrupt : ChildOutcome
deriving Repr, DecidableEq

/-- How `_start_deployment` itself ends: normal return (the final "Done
starting ..." print is reached) or an exception propagating out of it
(there is no handler for `CalledProcessError` and no `finally`). -/
inductive ActivationEnd where
  | returned : ActivationEnd
  | raised : ActivationEnd
deriving Repr, DecidableEq

/-- The `/etc/hosts` lifecycle of `_start_deployment(deployment_name)`
given the registration text `entry` (read from `host_additions`) and the
child's outcome.  The source removes the entry only inside the
`except KeyboardInterrupt` handler: on exit status 0 the `try` body
completes and nothing is removed; on a nonzero exit status
`CalledProcessError` propagates uncaught, also with nothing removed. -/
def start_deployment_hosts (hosts entry : List Char) (out : ChildOutcome) :
    List Char × ActivationEnd :=
  let h1 := registerEntry hosts entry
  match out with
  | .exitZero => (h1, .returned)
  | .exitNonzero => (h1, .raised)
  | .interrupt => (removeEntry entry h1, .returned)

/-! ### CLI dispatch (`_handle_cli_arguments`, `main`) -/

/-- The five operations the CLI can dispatch. -/
inductive Op where
  | pkiInit : Op
  | createServerCert : Op
  | createDeployment : Op
  | startDeployment : Op
  | unlockRepo : Op
deriving Repr, DecidableEq

/-- The parsed argument object: each flag is absent (`none`) or carries
its string value(s), as produced by the argument parser
(`--create-server-cert` takes 2 values, `--create-deployment` takes 4). -/
structure Args where
  pki_init : Option String
  create_server_cert : Option (String × String)
  create_deployment : Option (String × String × String × String)
  start_deployment : Option String
  unlock : Option String
deriving Repr, DecidableEq

/-- Python truthiness of an optional string: `None` and `""` are falsy. -/
def truthyStr : Option String → Bool
  | none => false
  | some s => !(s == "")

/-- `_handle_cli_arguments(args)`: five successive `if` statements, in
the textual order of the source; each dispatches its operation at most
once.  A multi-value flag (a nonempty list in Python) is truthy whenever
present. -/
def handle_cli_arguments (a : Args) : List Op :=
  (if truthyStr a.pki_init then [Op.pkiInit] else []) ++
  (if a.create_server_cert.isSome then [Op.createServerCert] else []) ++
  (if a.create_deployment.isSome then [Op.createDeployment] else []) ++
  (if truthyStr a.start_deployment then [Op.startDeployment] else []) ++
  (if truthyStr a.unlock then [Op.unlockRepo] else [])

/-- `executed_as_root()`: `os.geteuid() == 0`. -/
def executed_as_root (euid : Nat) : Bool :=
  euid == 0

/-- `main()`: the root check runs first; only when it passes does the
program parse its arguments and dispatch operations (returned here as the
ordered operation list, whose per-operation filesystem effects are the
functions above).  On failure it prints the error and exits with status
1, leaving the filesystem untouched. -/
def mainEntry (euid : Nat) (a : Args) (fs : FS) : FS × List Op × Option Nat :=
  if !(executed_as_root euid) then (fs, [], some 1)
  else (fs, handle_cli_arguments a, none)

/-! ### Small functions used by the statements, and concrete fixtures -/

/-- Decimal digit accumulator over characters. -/
def parseNatAux : List Char → Nat → Option Nat
  | [], acc => some acc
  | c :: rest, acc =>
    if c.isDigit then parseNatAux rest (acc * 10 + (c.toNat - 48)) else none

/-- Parse a nonempty all-decimal string as a number. -/
def parseNat (s : String) : Option Nat :=
  match s.data with
  | [] => none
  | _ :: _ => parseNatAux s.data 0

/-- Extract the value following a `-days` flag sitting at index `i` of a
command vector, as a number. -/
def cmdDays (cmd : List String) (i : Nat) : Option Nat :=
  if cmd[i]? = some "-days" then (cmd[i + 1]?).bind parseNat else none

/-- A PKI store holding the directory for PKI `example` but none of its
four root artifacts. -/
def fsNoArtifacts : FS :=
  ⟨["pkis/example"], []⟩

/-- A fully bootstrapped PKI store for PKI `example`: its directory and
all four root artifacts exist; no `servers/` tree yet. -/
def fsBootstrapped : FS :=
  ⟨["pkis/example"],
   [("pkis/example/private.example.key", "servicekey"),
    ("pkis/example/example.crt", "rootcert"),
    ("pkis/example/example.csr", "csr"),
    ("pkis/example/example.key", "rootkey")]⟩

/-- The bootstrapped store after a prior issuance for
`svc.example.com`: the `servers/` and domain directories already exist. -/
def fsReissue : FS :=
  ⟨["pkis/example", "pkis/example/servers", "pkis/example/servers/svc.example.com"],
   [("pkis/example/private.example.key", "servicekey"),
    ("pkis/example/example.crt", "rootcert"),
    ("pkis/example/example.csr", "csr"),
    ("pkis/example/example.key", "rootkey")]⟩

/-- A small `/etc/hosts` content: one newline-terminated line. -/
def exHosts : List Char :=
  ('x' : Char) :: [newline]

/-- The registration text for domain `svc.example.com`, as
`_generate_deployment` writes it into `host_additions`. -/
def exEntry : List Char :=
  ("127.0.0.1    svc.example.com").data

/-! ## Helper lemmas -/

/-- `check_files` returns `none` when every listed file exists. -/
theorem check_files_eq_none (fs : FS) (l : List String)
    (h : ∀ f ∈ l, hasFile fs f = true) : check_files fs l = none := by
  induction l with
  | nil => rfl
  | cons a t ih =>
    have ha : hasFile fs a = true := h a (List.mem_cons_self a t)
    simp only [check_files, ha, if_true]
    exact ih (fun f hf => h f (List.mem_cons_of_mem a hf))

/-- When some listed file is missing, `check_files` returns a missing
file from the list. -/
theorem check_files_eq_some (fs : FS) (l : List String)
    (h : ∃ f ∈ l, hasFile fs f = false) :
    ∃ g, check_files fs l = some g ∧ g ∈ l ∧ hasFile fs g = false := by
  induction l with
  | nil => simp at h
  | cons a t ih =>
    by_cases ha : hasFile fs a = true
    · obtain ⟨f, hf, hmiss⟩ := h
      rcases List.mem_cons.mp hf with rfl | hft
      · exact absurd ha (by simp [hmiss])
      · obtain ⟨g, hg1, hg2, hg3⟩ := ih ⟨f, hft, hmiss⟩
        exact ⟨g, by simp [check_files, ha, hg1], List.mem_cons_of_mem a hg2, hg3⟩
    · refine ⟨a, ?_, List.mem_cons_self a t, by simpa using ha⟩
      simp [check_files, Bool.eq_false_iff.mpr ha]

/-! ## Claims -/

/-- C4: for every PKI name, bootstrapping a second time after a
successful bootstrap fails with `AlreadyExists` (the directory-existence
guard runs before any cryptographic or file-writing step), the second
call invokes no external command, and the artifacts created by the first
bootstrap are left unchanged. -/
theorem bootstrap_twice_fails_untouched (fs : FS) (pki : String)
    (h : pathExists fs (PKI_DIR ++ "/" ++ pki) = false) :
    (generate_root_certs fs pki).err = none ∧
    generate_root_certs (generate_root_certs fs pki).fs pki =
      { fs := (generate_root_certs fs pki).fs,
        msgs := ["Error: PKI with the name " ++ pki ++ " already exists"],
        cmds := [], err := some .alreadyExists } := by
  constructor
  · simp [generate_root_certs, h]
  · have h1 : (generate_root_certs fs pki).fs.dirs = (PKI_DIR ++ "/" ++ pki) :: fs.dirs := by
      simp [generate_root_certs, h, mkdir, writeFile]
    have hex : pathExists (generate_root_certs fs pki).fs (PKI_DIR ++ "/" ++ pki) = true := by
      simp [pathExists, hasDir, h1]
    generalize hg : generate_root_certs fs pki = g at hex ⊢
    simp [generate_root_certs, hex]

/-- Witness for C4 at a concrete empty store and PKI name `example`. -/
theorem bootstrap_twice_fails_untouched_witness :
    pathExists ⟨[], []⟩ (PKI_DIR ++ "/" ++ "example") = false ∧
    ((generate_root_certs ⟨[], []⟩ "example").err = none ∧
     generate_root_certs (generate_root_certs ⟨[], []⟩ "example").fs "example" =
       { fs := (generate_root_certs ⟨[], []⟩ "example").fs,
         msgs := ["Error: PKI with the name " ++ "example" ++ " already exists"],
         cmds := [], err := some .alreadyExists }) :=
  ⟨by decide, bootstrap_twice_fails_untouched ⟨[], []⟩ "example" (by decide)⟩

/-- C5 counterexample: the root certificate command fixes 356 days and
the leaf-signing command fixes 365 days, so the leaf validity window is
NOT shorter than the root's. -/
theorem leaf_validity_not_shorter :
    cmdDays (openssl_root_command "example") 4 = some 356 ∧
    cmdDays (openssl_create_ssl "example" "svc.example.com") 14 = some 365 ∧
    ¬(365 < 356) := ⟨by decide, by decide, by decide⟩

/-- C5 amended: for every PKI and domain, the root certificate is issued
with a fixed 356-day validity window and the leaf certificate with a
fixed 365-day window; the leaf window is therefore longer than the
root's, not shorter. -/
theorem leaf_validity_longer_than_root (pki dom : String) :
    cmdDays (openssl_root_command pki) 4 = some 356 ∧
    cmdDays (openssl_create_ssl pki dom) 14 = some 365 ∧
    356 < 365 :=
  ⟨rfl, rfl, by decide⟩

/-- C9: for every invocation with a nonzero effective uid, the program
exits with status 1 before parsing arguments: no operation is
dispatched and the filesystem is untouched. -/
theorem nonroot_invocation_exits (euid : Nat) (a : Args) (fs : FS)
    (h : euid ≠ 0) :
    mainEntry euid a fs = (fs, [], some 1) := by
  have hb : executed_as_root euid = false := by
    simp [executed_as_root, h]
  simp [mainEntry, hb]

/-- Witness for C9 at effective uid 1000 with all flags set. -/
theorem nonroot_invocation_exits_witness :
    (1000 : Nat) ≠ 0 ∧
    mainEntry 1000
      ⟨some "example", some ("example", "svc.example.com"),
       some ("dep", "8443", "example", "svc.example.com"), some "dep", some "key"⟩
      ⟨[], []⟩ = (⟨[], []⟩, [], some 1) :=
  ⟨by decide,
   nonroot_invocation_exits 1000
     ⟨some "example", some ("example", "svc.example.com"),
      some ("dep", "8443", "example", "svc.example.com"), some "dep", some "key"⟩
     ⟨[], []⟩ (by decide)⟩

/-- C10: for every argument object, the dispatched operation list is a
sublist of the fixed order (bootstrap, issuance, provisioning,
activation, unlock) and contains no duplicates: the operations run in
that fixed order, each at most once. -/
theorem cli_dispatch_fixed_order (a : Args) :
    (handle_cli_arguments a).Sublist
      [Op.pkiInit, Op.createServerCert, Op.createDeployment,
       Op.startDeployment, Op.unlockRepo] ∧
    (handle_cli_arguments a).Nodup := by
  unfold handle_cli_arguments
  split_ifs <;> exact ⟨by decide, by decide⟩

/-- Appending different suffixes to the same string gives different
strings. -/
theorem append_ne_of_ne (a : String) {b c : String} (h : b ≠ c) :
    a ++ b ≠ a ++ c := by
  intro hh
  apply h
  have hd := congrArg String.data hh
  rw [String.data_append, String.data_append] at hd
  exact String.ext (List.append_cancel_left hd)

/-- After filtering out every entry at path `p`, no entry at path `p`
remains. -/
theorem any_fst_filter_ne (p : String) (l : List (String × String)) :
    (l.filter (fun f => !(f.fst == p))).any (fun f => f.fst == p) = false := by
  induction l with
  | nil => rfl
  | cons a t ih =>
    by_cases h : a.fst = p
    · simp [List.filter_cons, h, ih]
    · simp [List.filter_cons, h, ih]

/-- C3 amended: issuance under a PKI whose directory exists but with any
of the four root artifacts missing fails, naming an absent required
artifact (the first one in the fixed check order), and performs no
filesystem write and no external command: the returned state is exactly
the input state. -/
theorem issuance_missing_artifact_fails_closed (fs : FS) (pki dom pw : String)
    (hdir : pathExists fs (PKI_DIR ++ "/" ++ pki) = true)
    (hmiss : ∃ f ∈ required_filenames pki, hasFile fs f = false) :
    ∃ g ∈ required_filenames pki, hasFile fs g = false ∧
      generate_server_certs fs pki dom pw =
        { fs := fs, msgs := ["Error: missing file " ++ g ++ "!"],
          cmds := [], err := some (.missingFile g) } := by
  obtain ⟨g, hg, hgm, hgf⟩ := check_files_eq_some fs (required_filenames pki) hmiss
  refine ⟨g, hgm, hgf, ?_⟩
  simp [generate_server_certs, hdir, hg]

/-- Witness for C3 (amended) at the concrete store missing all four
artifacts. -/
theorem issuance_missing_artifact_fails_closed_witness :
    pathExists fsNoArtifacts (PKI_DIR ++ "/" ++ "example") = true ∧
    (∃ f ∈ required_filenames "example", hasFile fsNoArtifacts f = false) ∧
    (∃ g ∈ required_filenames "example", hasFile fsNoArtifacts g = false ∧
      generate_server_certs fsNoArtifacts "example" "svc.example.com" "secret1" =
        { fs := fsNoArtifacts, msgs := ["Error: missing file " ++ g ++ "!"],
          cmds := [], err := some (.missingFile g) }) :=
  ⟨by decide, by decide,
   issuance_missing_artifact_fails_closed fsNoArtifacts "example" "svc.example.com"
     "secret1" (by decide) (by decide)⟩

/-- C3 counterexample: with several root artifacts absent, the failure
names only the first missing file of the check order; the equally absent
root certificate is not listed, so the error does not list THE absent
files. -/
theorem issuance_missing_artifact_names_first_only :
    (generate_server_certs fsNoArtifacts "example" "svc.example.com" "secret1").err =
      some (.missingFile "pkis/example/private.example.key") ∧
    "pkis/example/example.crt" ∈ required_filenames "example" ∧
    hasFile fsNoArtifacts "pkis/example/example.crt" = false ∧
    (generate_server_certs fsNoArtifacts "example" "svc.example.com" "secret1").err ≠
      some (.missingFile "pkis/example/example.crt") := by
  decide

/-- C6: evaluated behavior of the domain-directory step.  When the
domain directory does NOT yet exist the source creates it and then
prints the "is already in use" warning (the print sits inside the
not-exists branch); when the directory DOES already exist nothing is
printed.  This is the inverse of the documented reuse-warning
behavior. -/
theorem reuse_warning_printed_on_fresh_directory :
    ((generate_server_certs fsBootstrapped "example" "svc.example.com" "secret1").msgs =
       ["Error: pkis/example/servers/svc.example.com is already in use"] ∧
     hasDir (generate_server_certs fsBootstrapped "example" "svc.example.com" "secret1").fs
       "pkis/example/servers/svc.example.com" = true ∧
     (generate_server_certs fsBootstrapped "example" "svc.example.com" "secret1").err = none) ∧
    ((generate_server_certs fsReissue "example" "svc.example.com" "secret1").msgs = [] ∧
     (generate_server_certs fsReissue "example" "svc.example.com" "secret1").err = none) := by
  decide

/-- C7: evaluated behavior at a 3-character passphrase.  Issuance
accepts it and embeds it in the PKCS#12 export invocation, and
provisioning embeds it in the rendered compose definition; no
minimum-length policy is enforced anywhere (the 6-character minimum
exists only in the prompt text `keystore_password_prompt`). -/
theorem short_passphrase_not_rejected :
    ("abc" : String).length < 6 ∧
    (generate_server_certs fsBootstrapped "example" "svc.example.com" "abc").err = none ∧
    openssl_create_pkcs12_keystore "example" "svc.example.com" "abc" ∈
      (generate_server_certs fsBootstrapped "example" "svc.example.com" "abc").cmds ∧
    readFile (generate_deployment fsBootstrapped "dep" "8443" "example" "svc.example.com" "abc")
        (DEP_DIR ++ "/" ++ "dep" ++ "/docker-compose.yaml") =
      some (composeTemplateRender "8443" "abc" "example" "svc.example.com") := by
  decide

/-- On the success path (PKI directory and all four artifacts present),
`_generate_server_certs` exits without error and its final file table is
the input table prefixed with the four writes of the issuance (cert.conf,
leaf certificate, PKCS#12 bundle, JKS keystore) and filtered by the
final `rm keystore.pkcs12`. -/
theorem gsc_success_shape (fs : FS) (pki dom pw : String)
    (hdir : pathExists fs (PKI_DIR ++ "/" ++ pki) = true)
    (hcf : check_files fs (required_filenames pki) = none) :
    (generate_server_certs fs pki dom pw).err = none ∧
    (generate_server_certs fs pki dom pw).fs.files =
      List.filter
        (fun f => !(f.fst == PKI_DIR ++ "/" ++ pki ++ "/servers" ++ "/" ++ dom ++ "/keystore.pkcs12"))
        ((PKI_DIR ++ "/" ++ pki ++ "/servers" ++ "/" ++ dom ++ "/keystore.jks", "jks") ::
         (PKI_DIR ++ "/" ++ pki ++ "/servers" ++ "/" ++ dom ++ "/keystore.pkcs12", "pkcs12") ::
         (PKI_DIR ++ "/" ++ pki ++ "/servers" ++ "/" ++ dom ++ "/" ++ dom ++ ".crt", "leafcert") ::
         (PKI_DIR ++ "/" ++ pki ++ "/servers" ++ "/" ++ dom ++ "/cert.conf", certTemplateRender dom) ::
         fs.files) := by
  simp only [generate_server_certs, hdir, hcf, Bool.not_true, Bool.false_eq_true, if_false]
  constructor
  · trivial
  · split <;> split <;> simp [removeFile, writeFile, mkdir]

/-- C8: every issuance that passes the artifact check succeeds with the
Java-interoperable keystore present at the domain directory and the
intermediate PKCS#12 bundle absent (the conversion step is followed by
deletion of the intermediate bundle). -/
theorem issuance_leaves_only_jks (fs : FS) (pki dom pw : String)
    (hdir : pathExists fs (PKI_DIR ++ "/" ++ pki) = true)
    (hfiles : ∀ f ∈ required_filenames pki, hasFile fs f = true) :
    (generate_server_certs fs pki dom pw).err = none ∧
    hasFile (generate_server_certs fs pki dom pw).fs
      (PKI_DIR ++ "/" ++ pki ++ "/servers" ++ "/" ++ dom ++ "/keystore.jks") = true ∧
    hasFile (generate_server_certs fs pki dom pw).fs
      (PKI_DIR ++ "/" ++ pki ++ "/servers" ++ "/" ++ dom ++ "/keystore.pkcs12") = false := by
  have hcf := check_files_eq_none fs (required_filenames pki) hfiles
  have hne : (PKI_DIR ++ "/" ++ pki ++ "/servers" ++ "/" ++ dom) ++ "/keystore.jks" ≠
      (PKI_DIR ++ "/" ++ pki ++ "/servers" ++ "/" ++ dom) ++ "/keystore.pkcs12" :=
    append_ne_of_ne _ (by decide)
  have hb : (((PKI_DIR ++ "/" ++ pki ++ "/servers" ++ "/" ++ dom) ++ "/keystore.jks") ==
      ((PKI_DIR ++ "/" ++ pki ++ "/servers" ++ "/" ++ dom) ++ "/keystore.pkcs12")) = false :=
    beq_eq_false_iff_ne.mpr hne
  obtain ⟨herr, hshape⟩ := gsc_success_shape fs pki dom pw hdir hcf
  refine ⟨herr, ?_, ?_⟩
  · simp only [hasFile, hshape, List.filter_cons, hb]
    simp
  · simp only [hasFile, hshape]
    exact any_fst_filter_ne _ _

/-- Witness for C8 at the concrete bootstrapped store with passphrase
`secret1`. -/
theorem issuance_leaves_only_jks_witness :
    pathExists fsBootstrapped (PKI_DIR ++ "/" ++ "example") = true ∧
    (∀ f ∈ required_filenames "example", hasFile fsBootstrapped f = true) ∧
    ((generate_server_certs fsBootstrapped "example" "svc.example.com" "secret1").err = none ∧
     hasFile (generate_server_certs fsBootstrapped "example" "svc.example.com" "secret1").fs
       (PKI_DIR ++ "/" ++ "example" ++ "/servers" ++ "/" ++ "svc.example.com" ++ "/keystore.jks") = true ∧
     hasFile (generate_server_certs fsBootstrapped "example" "svc.example.com" "secret1").fs
       (PKI_DIR ++ "/" ++ "example" ++ "/servers" ++ "/" ++ "svc.example.com" ++ "/keystore.pkcs12") = false) :=
  ⟨by decide, by decide,
   issuance_leaves_only_jks fsBootstrapped "example" "svc.example.com" "secret1"
     (by decide) (by decide)⟩

/-! ## Line-splitting lemmas for the `/etc/hosts` model -/

/-- Concatenating the physical lines restores the stream. -/
theorem flatten_splitLinesKeep (s : List Char) : (splitLinesKeep s).flatten = s := by
  induction s with
  | nil => rfl
  | cons c rest ih =>
    by_cases hc : c = newline
    · subst hc
      simp [splitLinesKeep, ih]
    · rw [splitLinesKeep, if_neg (by simp [hc])]
      cases h : splitLinesKeep rest with
      | nil =>
        have hr : rest = [] := by
          have h2 := ih
          rw [h] at h2
          simpa using h2.symm
        subst hr
        simp
      | cons l ls =>
        rw [h] at ih
        simp only [List.flatten_cons, List.cons_append] at ih ⊢
        rw [ih]

/-- Splitting a nonempty stream yields at least one line. -/
theorem splitLinesKeep_ne_nil (s : List Char) (h : s ≠ []) :
    splitLinesKeep s ≠ [] := by
  cases s with
  | nil => exact absurd rfl h
  | cons c rest =>
    rw [splitLinesKeep]
    by_cases hc : (c == newline) = true
    · simp [hc]
    · rw [if_neg hc]
      cases splitLinesKeep rest <;> simp

/-- Splitting yields no line exactly for the empty stream. -/
theorem splitLinesKeep_eq_nil_iff (s : List Char) :
    splitLinesKeep s = [] ↔ s = [] := by
  constructor
  · intro h
    by_contra hs
    exact splitLinesKeep_ne_nil s hs h
  · intro h
    subst h
    rfl

/-- A nonempty newline-free stream is a single line. -/
theorem splitLinesKeep_no_newline :
    ∀ e : List Char, e ≠ [] → newline ∉ e → splitLinesKeep e = [e] := by
  intro e
  induction e with
  | nil => intro h _; exact absurd rfl h
  | cons c rest ih =>
    intro _ hn
    have hc : ¬(c = newline) := fun h => hn (h ▸ List.mem_cons_self c rest)
    by_cases hr : rest = []
    · subst hr
      rw [splitLinesKeep, if_neg (by simp [hc])]
      rfl
    · have ihr := ih hr (fun hm => hn (List.mem_cons_of_mem c hm))
      rw [splitLinesKeep, if_neg (by simp [hc]), ihr]

/-- Splitting distributes over a newline boundary. -/
theorem splitLinesKeep_append (b : List Char) :
    ∀ a : List Char,
      splitLinesKeep (a ++ newline :: b) =
        splitLinesKeep (a ++ [newline]) ++ splitLinesKeep b := by
  intro a
  induction a with
  | nil =>
    simp [splitLinesKeep]
  | cons c a2 ih =>
    by_cases hc : c = newline
    · subst hc
      simp only [List.cons_append]
      rw [splitLinesKeep, if_pos (by simp), splitLinesKeep, if_pos (by simp), ih]
      rfl
    · obtain ⟨m, ms, hm⟩ : ∃ m ms, splitLinesKeep (a2 ++ [newline]) = m :: ms := by
        cases h : splitLinesKeep (a2 ++ [newline]) with
        | nil => exact absurd h (splitLinesKeep_ne_nil _ (by simp))
        | cons m ms => exact ⟨m, ms, rfl⟩
      simp only [List.cons_append]
      rw [splitLinesKeep, if_neg (by simp [hc]), ih, hm,
          splitLinesKeep, if_neg (by simp [hc]), hm]
      rfl

/-- Every list is a prefix of itself. -/
theorem prefixOf_self (e : List Char) : prefixOf e e = true := by
  induction e with
  | nil => rfl
  | cons c rest ih => simp [prefixOf, ih]

/-- Every list occurs in itself. -/
theorem isSubstring_self (e : List Char) : isSubstring e e = true := by
  cases e with
  | nil => rfl
  | cons c rest => simp [isSubstring, prefixOf_self]

/-- A prefix of `x` is a prefix of any extension of `x`. -/
theorem prefixOf_append (e : List Char) :
    ∀ x y : List Char, prefixOf e x = true → prefixOf e (x ++ y) = true := by
  induction e with
  | nil => intro x y _; rfl
  | cons d e2 ih =>
    intro x y h
    cases x with
    | nil => simp [prefixOf] at h
    | cons b x2 =>
      simp only [prefixOf, Bool.and_eq_true] at h ⊢
      exact ⟨h.1, ih x2 y h.2⟩

/-- A newline-free prefix of `x ++ newline :: y` is already a prefix of
`x`. -/
theorem prefixOf_newline_split :
    ∀ e : List Char, newline ∉ e →
      ∀ x y : List Char, prefixOf e (x ++ newline :: y) = true →
        prefixOf e x = true := by
  intro e
  induction e with
  | nil => intro _ x y _; rfl
  | cons d e2 ih =>
    intro hn x y h
    cases x with
    | nil =>
      exfalso
      simp only [List.nil_append, prefixOf, Bool.and_eq_true, beq_iff_eq] at h
      rw [h.1] at hn
      exact hn (List.mem_cons_self _ _)
    | cons b x2 =>
      simp only [List.cons_append, prefixOf, Bool.and_eq_true] at h ⊢
      exact ⟨h.1, ih (fun hm => hn (List.mem_cons_of_mem d hm)) x2 y h.2⟩

/-- A newline-free prefix of a stream is a prefix of the stream's first
physical line. -/
theorem prefixOf_head_line :
    ∀ s e : List Char, newline ∉ e → prefixOf e s = true →
      s = [] ∨ ∃ h t, splitLinesKeep s = h :: t ∧ prefixOf e h = true := by
  intro s
  induction s with
  | nil => intro e _ _; exact Or.inl rfl
  | cons c s2 ih =>
    intro e hn hp
    right
    cases e with
    | nil =>
      obtain ⟨h, t, hht⟩ : ∃ h t, splitLinesKeep (c :: s2) = h :: t := by
        cases hh : splitLinesKeep (c :: s2) with
        | nil => exact absurd hh (splitLinesKeep_ne_nil _ (by simp))
        | cons h t => exact ⟨h, t, rfl⟩
      exact ⟨h, t, hht, rfl⟩
    | cons d e2 =>
      simp only [prefixOf, Bool.and_eq_true, beq_iff_eq] at hp
      obtain ⟨hdb, hp2⟩ := hp
      have hcn : ¬(c = newline) := by
        intro hcnl
        have hd : d = newline := hdb.trans hcnl
        rw [hd] at hn
        exact hn (List.mem_cons_self _ _)
      have hne2 : newline ∉ e2 := fun hm => hn (List.mem_cons_of_mem d hm)
      cases hs2 : splitLinesKeep s2 with
      | nil =>
        have hs2e : s2 = [] := (splitLinesKeep_eq_nil_iff s2).mp hs2
        subst hs2e
        refine ⟨[c], [], ?_, ?_⟩
        · rw [splitLinesKeep, if_neg (by simp [hcn])]
          rfl
        · simp only [prefixOf, Bool.and_eq_true, beq_iff_eq]
          exact ⟨hdb, hp2⟩
      | cons m ms =>
        have hsplit : splitLinesKeep (c :: s2) = (c :: m) :: ms := by
          rw [splitLinesKeep, if_neg (by simp [hcn]), hs2]
        rcases ih e2 hne2 hp2 with hs2nil | ⟨h2, t2, hh2, hp22⟩
        · subst hs2nil
          simp [splitLinesKeep] at hs2
        · rw [hs2] at hh2
          injection hh2 with hh2a _
          refine ⟨c :: m, ms, hsplit, ?_⟩
          simp only [prefixOf, Bool.and_eq_true, beq_iff_eq]
          rw [← hh2a] at hp22
          exact ⟨hdb, hp22⟩

/-- A nonempty newline-free substring of a stream occurs inside one of
its physical lines. -/
theorem isSubstring_mem_line :
    ∀ s e : List Char, newline ∉ e → e ≠ [] → isSubstring e s = true →
      ∃ l ∈ splitLinesKeep s, isSubstring e l = true := by
  intro s
  induction s with
  | nil =>
    intro e _ he h
    cases e with
    | nil => exact absurd rfl he
    | cons d e2 => simp [isSubstring] at h
  | cons c s2 ih =>
    intro e hn he h
    rw [isSubstring, Bool.or_eq_true] at h
    rcases h with hpre | hsub
    · rcases prefixOf_head_line (c :: s2) e hn hpre with habs | ⟨hh, ht, hht, hph⟩
      · simp at habs
      · refine ⟨hh, by rw [hht]; exact List.mem_cons_self _ _, ?_⟩
        cases hh with
        | nil =>
          cases e with
          | nil => exact absurd rfl he
          | cons d e2 => simp [prefixOf] at hph
        | cons x xs =>
          rw [isSubstring, Bool.or_eq_true]
          exact Or.inl hph
    · obtain ⟨l, hl, hli⟩ := ih e hn he hsub
      by_cases hc : c = newline
      · subst hc
        refine ⟨l, ?_, hli⟩
        rw [splitLinesKeep, if_pos (by simp)]
        exact List.mem_cons_of_mem _ hl
      · cases hs2 : splitLinesKeep s2 with
        | nil =>
          rw [hs2] at hl
          simp at hl
        | cons m ms =>
          rw [hs2] at hl
          have hsplit : splitLinesKeep (c :: s2) = (c :: m) :: ms := by
            rw [splitLinesKeep, if_neg (by simp [hc]), hs2]
          rcases List.mem_cons.mp hl with rfl | hms
          · refine ⟨c :: l, by rw [hsplit]; exact List.mem_cons_self _ _, ?_⟩
            rw [isSubstring, Bool.or_eq_true]
            exact Or.inr hli
          · exact ⟨l, by rw [hsplit]; exact List.mem_cons_of_mem _ hms, hli⟩

/-- Core lemma for deregistration: when no line of the prior content
contains the (nonempty, newline-free) registration text, filtering the
registered stream keeps every prior line and the appended separator
newline, and drops exactly the registration line — the result is the
prior content with one extra trailing newline.  The second component
tracks that the first physical line of the registered stream never
contains the registration text. -/
theorem removeEntry_register_aux (e : List Char) (he : e ≠ []) (hn : newline ∉ e) :
    ∀ prior, (∀ l ∈ splitLinesKeep prior, isSubstring e l = false) →
      removeEntry e (registerEntry prior e) = prior ++ [newline] ∧
      (∀ h t, splitLinesKeep (registerEntry prior e) = h :: t →
        isSubstring e h = false) := by
  have hnl : isSubstring e [newline] = false := by
    cases e with
    | nil => exact absurd rfl he
    | cons d e2 =>
      have hd : ¬(d = newline) := fun hh => hn (hh ▸ List.mem_cons_self d e2)
      simp [isSubstring, prefixOf, hd]
  intro prior
  induction prior with
  | nil =>
    intro _
    have hsplit : splitLinesKeep (registerEntry [] e) = [newline] :: [e] := by
      rw [registerEntry, List.nil_append, splitLinesKeep, if_pos (by simp),
          splitLinesKeep_no_newline e he hn]
    constructor
    · rw [removeEntry, hsplit]
      simp [List.filter_cons, hnl, isSubstring_self]
    · intro h t hht
      rw [hsplit] at hht
      injection hht with h1 _
      rw [← h1]
      exact hnl
  | cons c p2 ih =>
    intro hp
    by_cases hc : c = newline
    · subst hc
      have hsplitp : splitLinesKeep (newline :: p2) = [newline] :: splitLinesKeep p2 := by
        rw [splitLinesKeep, if_pos (by simp)]
      have hp2 : ∀ l ∈ splitLinesKeep p2, isSubstring e l = false := by
        intro l hl
        exact hp l (by rw [hsplitp]; exact List.mem_cons_of_mem _ hl)
      obtain ⟨ihA, _⟩ := ih hp2
      have hsplit : splitLinesKeep (registerEntry (newline :: p2) e) =
          [newline] :: splitLinesKeep (registerEntry p2 e) := by
        rw [registerEntry, List.cons_append, splitLinesKeep, if_pos (by simp)]
        rfl
      constructor
      · rw [removeEntry, hsplit, List.filter_cons]
        simp only [hnl, Bool.not_false, if_true, List.flatten_cons]
        rw [removeEntry] at ihA
        rw [ihA]
        rfl
      · intro h t hht
        rw [hsplit] at hht
        injection hht with h1 _
        rw [← h1]
        exact hnl
    · have hcc : ¬((c == newline) = true) := by simp [hc]
      obtain ⟨m, ms, hm⟩ : ∃ m ms, splitLinesKeep (registerEntry p2 e) = m :: ms := by
        cases hh : splitLinesKeep (registerEntry p2 e) with
        | nil =>
          exact absurd hh (splitLinesKeep_ne_nil _ (by simp [registerEntry]))
        | cons m ms => exact ⟨m, ms, rfl⟩
      have hsplit : splitLinesKeep (registerEntry (c :: p2) e) = (c :: m) :: ms := by
        rw [registerEntry, List.cons_append, splitLinesKeep, if_neg hcc]
        rw [registerEntry] at hm
        rw [hm]
      have hp2 : ∀ l ∈ splitLinesKeep p2, isSubstring e l = false := by
        intro l hl
        cases hsp2 : splitLinesKeep p2 with
        | nil =>
          rw [hsp2] at hl
          simp at hl
        | cons m2 ms2 =>
          rw [hsp2] at hl
          have hsplitc : splitLinesKeep (c :: p2) = (c :: m2) :: ms2 := by
            rw [splitLinesKeep, if_neg hcc, hsp2]
          rcases List.mem_cons.mp hl with rfl | hms
          · have hcl := hp (c :: l) (by rw [hsplitc]; exact List.mem_cons_self _ _)
            rw [isSubstring, Bool.or_eq_false_iff] at hcl
            exact hcl.2
          · exact hp l (by rw [hsplitc]; exact List.mem_cons_of_mem _ hms)
      obtain ⟨ihA, ihB⟩ := ih hp2
      have hmfalse : isSubstring e m = false := ihB m ms hm
      have hcmfalse : isSubstring e (c :: m) = false := by
        have hpre : prefixOf e (c :: m) = false := by
          by_contra hcon
          have hpre2 : prefixOf e (c :: m) = true := by
            cases hb : prefixOf e (c :: m)
            · exact absurd hb hcon
            · rfl
          have hflat := flatten_splitLinesKeep (registerEntry (c :: p2) e)
          rw [hsplit, List.flatten_cons] at hflat
          have hpref3 : prefixOf e (registerEntry (c :: p2) e) = true := by
            rw [← hflat]
            exact prefixOf_append e (c :: m) _ hpre2
          rw [registerEntry] at hpref3
          have hpref4 : prefixOf e (c :: p2) = true :=
            prefixOf_newline_split e hn (c :: p2) e hpref3
          have hsubc : isSubstring e (c :: p2) = true := by
            rw [isSubstring, Bool.or_eq_true]
            exact Or.inl hpref4
          obtain ⟨l, hl, hli⟩ := isSubstring_mem_line (c :: p2) e hn he hsubc
          rw [hp l hl] at hli
          exact absurd hli (by simp)
        rw [isSubstring, hpre, hmfalse]
        rfl
      constructor
      · rw [removeEntry, hsplit, List.filter_cons]
        simp only [hcmfalse, Bool.not_false, if_true, List.flatten_cons]
        rw [removeEntry, hm, List.filter_cons] at ihA
        simp only [hmfalse, Bool.not_false, if_true, List.flatten_cons] at ihA
        rw [List.cons_append, ihA]
        rfl
      · intro h t hht
        rw [hsplit] at hht
        injection hht with h1 _
        rw [← h1]
        exact hcmfalse

/-! ## Claims about deployment activation -/

/-- C1: evaluated `/etc/hosts` lifecycle of `_start_deployment` at a
concrete prior content and registration entry.  On exit status 0 the
activation returns with the registration line still present, and on a
nonzero exit status the error propagates with the registration line
still present; only the `KeyboardInterrupt` path removes it.  The
registration is therefore NOT removed on every exit path. -/
theorem activation_skips_cleanup_except_interrupt :
    start_deployment_hosts exHosts exEntry ChildOutcome.exitZero =
      (exHosts ++ newline :: exEntry, ActivationEnd.returned) ∧
    start_deployment_hosts exHosts exEntry ChildOutcome.exitNonzero =
      (exHosts ++ newline :: exEntry, ActivationEnd.raised) ∧
    isSubstring exEntry
      (start_deployment_hosts exHosts exEntry ChildOutcome.exitZero).fst = true ∧
    isSubstring exEntry
      (start_deployment_hosts exHosts exEntry ChildOutcome.interrupt).fst = false := by
  decide

/-- C2 counterexample: at a concrete prior content whose lines do not
contain the registration text, registration followed by the
deregistration step does NOT restore the original content (the appended
separator newline survives the line filter). -/
theorem deregistration_not_exact :
    (∀ l ∈ splitLinesKeep exHosts, isSubstring exEntry l = false) ∧
    removeEntry exEntry (registerEntry exHosts exEntry) ≠ exHosts := by
  decide

/-- C2 amended: for every prior content none of whose physical lines
contains the (nonempty, newline-free) registration text, the
deregistration step applied to the registered stream removes exactly the
registration line and no prior line, but keeps the separator newline that
registration appended: the resulting content is the prior content
followed by one extra newline, not the prior content itself. -/
theorem deregistration_restores_modulo_newline (prior e : List Char)
    (he : e ≠ []) (hn : newline ∉ e)
    (hp : ∀ l ∈ splitLinesKeep prior, isSubstring e l = false) :
    removeEntry e (registerEntry prior e) = prior ++ [newline] :=
  (removeEntry_register_aux e he hn prior hp).1

/-- Witness for C2 (amended) at the concrete prior content and
registration entry. -/
theorem deregistration_restores_modulo_newline_witness :
    (exEntry ≠ [] ∧ newline ∉ exEntry ∧
      ∀ l ∈ splitLinesKeep exHosts, isSubstring exEntry l = false) ∧
    removeEntry exEntry (registerEntry exHosts exEntry) = exHosts ++ [newline] :=
  ⟨⟨by decide, by decide, by decide⟩,
   deregistration_restores_modulo_newline exHosts exEntry
     (by decide) (by decide) (by decide)⟩

end PkiPlayground
